import Mathlib

/-!
Shallow embedding of the artwork catalog server (`src/app.js`).

The program keeps a single in-memory JavaScript array `artworks` of artwork
records, loaded from `data.json` at startup, and exposes Express routes that
read and mutate it, calling `saveArtwork` (a full JSON rewrite of the file)
after each mutation.

Modelling granularity:
* A JS artwork record is modelled by `Artwork`.  The code only ever observes
  the `image` and `liked` fields through truthiness tests (`item.image ? ...`,
  `if (artwork.image)`, `item.liked ? ...`, `!artworks[id].liked`), so a JS
  record in which `image` is `null` or absent is modelled by `image = none`,
  and one in which `liked` is absent (`undefined`) by `liked = false`.
* The in-memory array may contain holes (the unchecked array write in
  `POST /updateArtwork/:id` can extend the array past its length).  A hole,
  and likewise a `null` element, is modelled by `none`; a record by `some a`.
* Route `:id` parameters arrive as strings.  `artworks[id]` performs an
  element lookup exactly when `id` is a canonical array-index string
  (ECMAScript: the decimal numeral of some `n < 2^32 - 1`); any other key is
  an ordinary property of the array object, which is not part of the element
  sequence (we model such lookups as `undefined` and such writes as leaving
  the element sequence unchanged; properties inherited from
  `Array.prototype` are outside the model).
* `POST /toggleLike/:id` instead coerces with `parseInt`, modelled by
  `parseIntJs` (whitespace skip, optional sign, `0x` hex prefix, longest
  digit prefix; ASCII whitespace).
* A handler that dereferences `undefined` (e.g. `item.title` or
  `artwork.image` when the lookup failed) throws a `TypeError` before any
  mutation; such outcomes are modelled by `none` / `Option.none` results.
* Form fields parsed by `express.urlencoded` are strings when submitted and
  `undefined` when absent; where the distinction matters (the validation in
  `POST /addArtwork`) inputs are `Option String`, with JS string truthiness
  `some s ↦ s ≠ ""`, `none ↦ false`.
-/

structure Artwork where
  title : String
  date : String
  description : String
  image : Option String
  liked : Bool
deriving Repr, DecidableEq

/-- The in-memory `artworks` array; `none` is an array hole (or `null`
element), `some a` a record. -/
abbrev Collection := List (Option Artwork)

/-- JS truthiness of a form field: absent (`undefined`) and the empty string
are falsy, every other string truthy. -/
def jsTruthy (o : Option String) : Bool :=
  match o with
  | none => false
  | some s => s != ""

def isDigit (c : Char) : Bool := '0' ≤ c && c ≤ '9'

def digitsVal (cs : List Char) : Nat :=
  cs.foldl (fun n c => 10 * n + (c.toNat - '0'.toNat)) 0

/-- `some n` iff `cs` is the canonical decimal numeral of `n`: nonempty, all
digits, no leading zero (except `"0"` itself). -/
def canonicalNat? (cs : List Char) : Option Nat :=
  match cs with
  | [] => none
  | ['0'] => some 0
  | '0' :: _ :: _ => none
  | _ => if cs.all isDigit then some (digitsVal cs) else none

/-- ECMAScript array-index test on a property key: `s` names element `n` of
an array exactly when `s` is the canonical numeral of some `n < 2^32 - 1`. -/
def jsArrayIndex? (s : String) : Option Nat :=
  match canonicalNat? s.data with
  | some n => if n < 4294967295 then some n else none
  | none => none

/-- `artworks[id]` for a string key `id`: an element lookup when `id` is an
array index, `undefined` (`none`) when the index is out of range, a hole, or
not an array index at all. -/
def arrGet (l : Collection) (id : String) : Option Artwork :=
  match jsArrayIndex? id with
  | some n => (l.get? n).join
  | none => none

def isJsSpace (c : Char) : Bool :=
  c = ' ' || c = '\t' || c = '\n' || c = '\r' || c = '\x0b' || c = '\x0c'

/-- Value of a base-16 digit character, for `parseInt`'s `0x` branch. -/
def hexDigitVal? (c : Char) : Option Nat :=
  if c.isDigit then
    some (c.toNat - 48)
  else
    let low := c.toLower
    if 'a' ≤ low && low ≤ 'f' then some (low.toNat - 87) else none

/-- Value of a base-10 digit character. -/
def decDigitVal? (c : Char) : Option Nat :=
  if c.isDigit then some (c.toNat - 48) else none

def takeDigitsVal (dv : Char → Option Nat) (radix : Nat) :
    List Char → Nat → Nat × Bool
  | [], acc => (acc, false)
  | c :: cs, acc =>
    match dv c with
    | some d => ((takeDigitsVal dv radix cs (radix * acc + d)).1, true)
    | none => (acc, false)

/-- JS `parseInt(s)` (radix argument omitted): skip whitespace, optional
sign, `0x`/`0X` switches to hex, then the longest digit prefix; `none`
models `NaN` (no digits). -/
def parseIntJs (s : String) : Option Int :=
  let cs := s.data.dropWhile isJsSpace
  let (neg, cs) :=
    match cs with
    | '-' :: r => (true, r)
    | '+' :: r => (false, r)
    | _ => (false, cs)
  let (radix, dv, cs) :=
    match cs with
    | '0' :: c :: r =>
      if c = 'x' || c = 'X' then (16, hexDigitVal?, r)
      else (10, decDigitVal?, '0' :: c :: r)
    | _ => (10, decDigitVal?, cs)
  match takeDigitsVal dv radix cs 0 with
  | (_, false) => none
  | (v, true) => some (if neg then -(v : Int) else (v : Int))

/-- Case-insensitive substring containment,
`hay.toLowerCase().includes(needle.toLowerCase())`.  `Char.toLower` folds
ASCII letters, the granularity at which the code is exercised. -/
def infixOf : (needle hay : List Char) → Bool
  | n, h =>
    n.isPrefixOf h ||
      match h with
      | [] => false
      | _ :: t => infixOf n t

/-- Character-wise lowercasing of `.toLowerCase()` (ASCII granularity). -/
def lowerChars (s : String) : List Char :=
  s.data.map Char.toLower

def containsCI (hay needle : String) : Bool :=
  infixOf (lowerChars needle) (lowerChars hay)

/-! ## Route handlers -/

/-- `POST /addArtwork` (app.js:152-163).  Returns the new state and whether
`saveArtwork` ran; the `false` branch is the `"All fields are required"`
response, which performs no mutation.  `img` is `req.file ? filename : null`. -/
def postAdd (l : Collection) (t d ds : Option String) (img : Option String) :
    Collection × Bool :=
  if jsTruthy t && jsTruthy d && jsTruthy ds then
    (l ++ [some ⟨t.getD "", d.getD "", ds.getD "", img, false⟩], true)
  else
    (l, false)

/-- `GET /updateArtwork/:id` (app.js:168-180), the read-for-edit (Get)
operation: returns the record whose fields fill the form, or `none` when
`artworks[id]` is `undefined` and `item.title` throws before a response is
sent.  The route never mutates the collection. -/
def getUpdateForm (l : Collection) (id : String) : Option Artwork :=
  arrGet l id

/-- `POST /updateArtwork/:id` (app.js:185-198).  `artworks[id] =
{...existing, title, date, description}` with no bounds check: at a valid
index the spread retains `image` and `liked`; at a hole or past the end the
spread of `undefined` yields a record holding only the three submitted
fields (absent `image`/`liked` modelled by their falsy stand-ins
`none`/`false`); writing past the end pads with holes; a non-array-index key
becomes a plain property, leaving the element sequence unchanged.  The
handler never throws and always calls `saveArtwork`. -/
def postUpdate (l : Collection) (id t d ds : String) : Collection :=
  match jsArrayIndex? id with
  | some n =>
    match l.get? n with
    | some (some a) => l.set n (some { a with title := t, date := d, description := ds })
    | some none => l.set n (some ⟨t, d, ds, none, false⟩)
    | none => l ++ List.replicate (n - l.length) none ++ [some ⟨t, d, ds, none, false⟩]
  | none => l

/-- `POST /deleteArtwork/:id` (app.js:203-218).  `artwork.image` throws when
`artworks[id]` is `undefined` (`none` result: no mutation, no save);
otherwise the handler requests deletion of the image asset if present,
splices the element out, and saves.  Returns the new state and the removed
record. -/
def postDelete (l : Collection) (id : String) : Option (Collection × Artwork) :=
  match jsArrayIndex? id with
  | some n =>
    match (l.get? n).join with
    | some a => some (l.eraseIdx n, a)
    | none => none
  | none => none

/-- `POST /toggleLike/:id` (app.js:223-230).  `id` is coerced with
`parseInt`; when `artworks[id]` is truthy the `liked` flag is flipped and
the state saved, otherwise nothing happens.  Returns the new state and
whether `saveArtwork` ran. -/
def postToggle (l : Collection) (id : String) : Collection × Bool :=
  match parseIntJs id with
  | none => (l, false)
  | some i =>
    if i < 0 then (l, false)
    else
      match l.get? i.toNat with
      | some (some a) => (l.set i.toNat (some { a with liked := !a.liked }), true)
      | _ => (l, false)

/-! ## List/search views -/

/-- `artworks.map((item, index) => ({...item, index}))` followed by a
`.filter`: `map` preserves holes and `filter` drops them, so the pipeline
pairs each non-hole record with its original position. -/
def withIndex (l : Collection) : List (Nat × Artwork) :=
  l.enum.filterMap fun p => p.2.map fun a => (p.1, a)

/-- `GET /` (app.js:43-47): records whose title contains the search query
case-insensitively, in collection order, paired with their indices. -/
def homeCards (l : Collection) (q : String) : List (Nat × Artwork) :=
  (withIndex l).filter fun p => containsCI p.2.title q

/-- `GET /favourites` (app.js:101-108): liked records whose title or
description contains the search query case-insensitively. -/
def favCards (l : Collection) (q : String) : List (Nat × Artwork) :=
  (withIndex l).filter fun p =>
    p.2.liked && (containsCI p.2.title q || containsCI p.2.description q)

/-! ## Persistence -/

/-- The JSON documents `JSON.stringify`/`JSON.parse` exchange with
`data.json` (equivalently: the JSON-representable JS values the parse can
yield); the string layer of `stringify`/`parse` is the runtime's and is
modelled at this document-tree granularity. -/
inductive JsVal where
  | jstr (s : String)
  | jnum (n : Int)
  | jbool (b : Bool)
  | jnull
  | jarr (elements : List JsVal)
  | jobj (fields : List (String × JsVal))

/-- How `JSON.stringify` renders one artwork record (field order as
constructed in `POST /addArtwork`); a `null`/absent image is `null`. -/
def artworkToJson (a : Artwork) : JsVal :=
  JsVal.jobj [("title", JsVal.jstr a.title), ("date", JsVal.jstr a.date),
              ("description", JsVal.jstr a.description),
              ("image", (a.image.map JsVal.jstr).getD JsVal.jnull),
              ("liked", JsVal.jbool a.liked)]

/-- `saveArtwork` (app.js:33): the whole array serialised as one document;
holes render as `null`. -/
def saveDoc (l : Collection) : JsVal :=
  JsVal.jarr (l.map fun o => ((o.map artworkToJson).getD JsVal.jnull))

/-- Reading one parsed element back as the model's record: `null` is a
hole-equivalent, an object with this exact field set is a record. -/
def artworkOfJson : JsVal → Option (Option Artwork)
  | JsVal.jnull => some none
  | JsVal.jobj [("title", JsVal.jstr t), ("date", JsVal.jstr d),
                ("description", JsVal.jstr ds), ("image", img),
                ("liked", JsVal.jbool lk)] =>
    match img with
    | JsVal.jnull => some (some ⟨t, d, ds, none, lk⟩)
    | JsVal.jstr s => some (some ⟨t, d, ds, some s, lk⟩)
    | _ => none
  | _ => none

/-- A parsed document read back as a collection; `none` when the JSON value
is not an artwork array (the untyped assignment at app.js:27 would keep such
a value, which is outside the collection model). -/
def collectionOfJson : JsVal → Option Collection
  | JsVal.jarr es => es.mapM artworkOfJson
  | _ => none

/-- The startup load (app.js:25-30): the parse outcome is `none` when
`data.json` is missing or its content fails to parse (the `catch` branch),
in which case the state is the empty array; otherwise the parsed document is
kept as the state. -/
def loadCollection (parsed : Option JsVal) : Option Collection :=
  match parsed with
  | none => some []
  | some j => collectionOfJson j

/-! ## Helper lemmas -/

theorem infixOf_iff_infix (n h : List Char) : infixOf n h = true ↔ n <:+: h := by
  induction h with
  | nil =>
    rw [infixOf]
    simp [List.isPrefixOf_iff_prefix]
  | cons c t ih =>
    rw [infixOf]
    simp only [Bool.or_eq_true, List.isPrefixOf_iff_prefix, ih, List.infix_cons_iff]

theorem mem_withIndex (l : Collection) (i : Nat) (a : Artwork) :
    (i, a) ∈ withIndex l ↔ l.get? i = some (some a) := by
  unfold withIndex
  rw [List.mem_filterMap]
  constructor
  · rintro ⟨⟨j, o⟩, hmem, heq⟩
    cases o with
    | none => simp at heq
    | some b =>
      simp only [Option.map_some', Option.some.injEq, Prod.mk.injEq] at heq
      obtain ⟨rfl, rfl⟩ := heq
      rw [List.get?_eq_getElem?]
      exact List.mk_mem_enum_iff_getElem?.mp hmem
  · intro h
    exact ⟨(i, some a), List.mk_mem_enum_iff_getElem?.mpr
      (by rw [← List.get?_eq_getElem?]; exact h), rfl⟩

theorem withIndex_pairwise (l : Collection) :
    (withIndex l).Pairwise fun p q => p.1 < q.1 := by
  unfold withIndex
  refine List.pairwise_filterMap.mpr ?_
  have henum : l.enum.Pairwise fun p q => p.1 < q.1 := by
    rw [List.pairwise_iff_getElem]
    intro i j hi hj hij
    simp only [List.getElem_enum]
    simpa using hij
  refine henum.imp ?_
  rintro ⟨i, o⟩ ⟨j, o'⟩ hij b hb b' hb'
  cases o with
  | none => simp at hb
  | some x =>
    cases o' with
    | none => simp at hb'
    | some y =>
      simp only [Option.map_some', Option.mem_def, Option.some.injEq] at hb hb'
      subst hb; subst hb'
      exact hij

/-! ## Concrete records used in counterexamples and witnesses -/

def artA : Artwork := ⟨"A", "2020-01-01", "first artwork", none, false⟩

def artB : Artwork := ⟨"B", "2021-02-02", "second artwork", some "b.png", true⟩

def artC : Artwork := ⟨"C", "2022-03-03", "third artwork", none, false⟩

/-! ## Claims -/

/-- C1 (counterexample): the claim says every out-of-bounds index makes
Update fail with NotFoundError and leave the in-memory sequence unchanged.
On a one-record collection the index `"1"` is out of bounds, yet
`POST /updateArtwork/1` throws nothing and changes the sequence: the
unchecked `artworks[id] = {...existing, ...}` write appends a fresh record
built from the submitted fields and then persists it. -/
theorem c1_counterexample :
    postUpdate [some artA] "1" "T" "2024-01-01" "changed" ≠ [some artA] := by decide

/-- C1 (amended): for a hole-free collection, when `artworks[id]` is
`undefined` (index out of bounds, negative, or non-integral), Get and Delete
throw before any mutation, leaving the sequence unchanged; Update, however,
does not fail: a non-array-index id leaves the sequence unchanged, while a
canonical integer id (necessarily `≥ length`) appends a record holding only
the submitted title/date/description, padded with holes, and persists it. -/
theorem c1_amended (l : Collection) (id t d ds : String)
    (hfull : ∀ o ∈ l, Option.isSome o) (hinv : arrGet l id = none) :
    getUpdateForm l id = none ∧
    postDelete l id = none ∧
    (jsArrayIndex? id = none → postUpdate l id t d ds = l) ∧
    (∀ n, jsArrayIndex? id = some n →
      l.length ≤ n ∧
      postUpdate l id t d ds =
        l ++ List.replicate (n - l.length) none ++ [some ⟨t, d, ds, none, false⟩]) := by
  refine ⟨hinv, ?_, ?_, ?_⟩
  · cases hj : jsArrayIndex? id with
    | none => simp only [postDelete, hj]
    | some n =>
      have hjoin : (l.get? n).join = none := by
        have h := hinv
        simp only [arrGet, hj] at h
        exact h
      simp only [postDelete, hj, hjoin]
  · intro hj
    simp only [postUpdate, hj]
  · intro n hj
    have hjoin : (l.get? n).join = none := by
      have h := hinv
      simp only [arrGet, hj] at h
      exact h
    have hnone : l.get? n = none := by
      cases ho : l.get? n with
      | none => rfl
      | some o =>
        cases o with
        | none => exact absurd (hfull none (List.get?_mem ho)) (by simp)
        | some a => rw [ho] at hjoin; simp at hjoin
    refine ⟨List.get?_eq_none.mp hnone, ?_⟩
    simp only [postUpdate, hj, hnone]

/-- C1 (amended, witness): the amended statement at the one-record
collection and the out-of-bounds index `"5"`. -/
theorem c1_amended_witness :
    ((∀ o ∈ ([some artA] : Collection), Option.isSome o) ∧
      arrGet [some artA] "5" = none) ∧
    (getUpdateForm [some artA] "5" = none ∧
      postDelete [some artA] "5" = none ∧
      (jsArrayIndex? "5" = none → postUpdate [some artA] "5" "T" "D" "S" = [some artA]) ∧
      (∀ n, jsArrayIndex? "5" = some n →
        ([some artA] : Collection).length ≤ n ∧
        postUpdate [some artA] "5" "T" "D" "S" =
          [some artA] ++ List.replicate (n - ([some artA] : Collection).length) none ++
            [some ⟨"T", "D", "S", none, false⟩])) :=
  ⟨⟨by decide, by decide⟩, c1_amended [some artA] "5" "T" "D" "S" (by decide) (by decide)⟩

/-- C2: at a valid index, Update replaces exactly the title, date and
description of the record there, keeps its `image` and `liked` fields
unchanged, and leaves every other position of the collection untouched. -/
theorem c2_update_preserves_frame (l : Collection) (id : String) (n : Nat) (a : Artwork)
    (t d ds : String) (hid : jsArrayIndex? id = some n) (hget : l.get? n = some (some a)) :
    (postUpdate l id t d ds).get? n =
      some (some { title := t, date := d, description := ds,
                   image := a.image, liked := a.liked }) ∧
    ∀ m, m ≠ n → (postUpdate l id t d ds).get? m = l.get? m := by
  have hn : n < l.length := by
    rcases List.get?_eq_some.mp hget with ⟨h, _⟩
    exact h
  simp only [postUpdate, hid, hget]
  constructor
  · rw [List.get?_eq_getElem?]
    exact List.getElem?_set_self hn
  · intro m hm
    rw [List.get?_eq_getElem?, List.get?_eq_getElem?]
    exact List.getElem?_set_ne (fun h => hm h.symm)

/-- C2 (witness): updating index `"1"` of a two-record collection whose
second record has an image and `liked = true`. -/
theorem c2_update_preserves_frame_witness :
    (jsArrayIndex? "1" = some 1 ∧
      ([some artA, some artB] : Collection).get? 1 = some (some artB)) ∧
    ((postUpdate [some artA, some artB] "1" "N" "2024-05-05" "edited").get? 1 =
      some (some { title := "N", date := "2024-05-05", description := "edited",
                   image := artB.image, liked := artB.liked }) ∧
    ∀ m, m ≠ 1 →
      (postUpdate [some artA, some artB] "1" "N" "2024-05-05" "edited").get? m =
        ([some artA, some artB] : Collection).get? m) :=
  ⟨⟨by decide, by decide⟩,
    c2_update_preserves_frame [some artA, some artB] "1" 1 artB "N" "2024-05-05" "edited"
      (by decide) (by decide)⟩

/-- C3: Create with an empty or absent title, date or description fails
(the "All fields are required" branch), with the collection unchanged and
no save triggered; and with all three fields non-empty, an absent image
never causes failure: the record is appended (with `image = null`,
`liked = false`) and saved. -/
theorem c3_create_validation (l : Collection) (t d ds img : Option String)
    (hbad : t = none ∨ t = some "" ∨ d = none ∨ d = some "" ∨ ds = none ∨ ds = some "")
    (t' d' ds' : String) (ht : t' ≠ "") (hd : d' ≠ "") (hds : ds' ≠ "") :
    postAdd l t d ds img = (l, false) ∧
    postAdd l (some t') (some d') (some ds') none =
      (l ++ [some ⟨t', d', ds', none, false⟩], true) := by
  constructor
  · unfold postAdd
    rcases hbad with rfl | rfl | rfl | rfl | rfl | rfl <;> simp [jsTruthy]
  · unfold postAdd
    simp [jsTruthy, ht, hd, hds]

/-- C3 (witness): an empty title is rejected without mutation or save, and a
create with no image succeeds. -/
theorem c3_create_validation_witness :
    (((some "" : Option String) = none ∨ (some "" : Option String) = some "" ∨
        (some "2024-01-01" : Option String) = none ∨ (some "2024-01-01" : Option String) = some "" ∨
        (some "a piece" : Option String) = none ∨ (some "a piece" : Option String) = some "") ∧
      "T" ≠ "" ∧ "2024-01-01" ≠ "" ∧ "a piece" ≠ "") ∧
    (postAdd [some artA] (some "") (some "2024-01-01") (some "a piece") none =
        ([some artA], false) ∧
      postAdd [some artA] (some "T") (some "2024-01-01") (some "a piece") none =
        ([some artA] ++ [some ⟨"T", "2024-01-01", "a piece", none, false⟩], true)) :=
  ⟨⟨Or.inr (Or.inl rfl), by decide, by decide, by decide⟩,
    c3_create_validation [some artA] (some "") (some "2024-01-01") (some "a piece") none
      (Or.inr (Or.inl rfl)) "T" "2024-01-01" "a piece" (by decide) (by decide) (by decide)⟩

/-- C4: deleting at a valid position `k` (denoted by the array-index string
`id`) removes the record there and shifts later records down: a subsequent
Get at the same index returns the record previously at `k + 1`, and fails
(undefined lookup, the NotFoundError case) when `k` was the last index. -/
theorem c4_delete_reindex (l : Collection) (id : String) (k : Nat)
    (hfull : ∀ o ∈ l, Option.isSome o)
    (hid : jsArrayIndex? id = some k) (hk : k < l.length) :
    ∃ l' a, postDelete l id = some (l', a) ∧ l.get? k = some (some a) ∧
      getUpdateForm l' id = (l.get? (k + 1)).join ∧
      (k + 1 < l.length →
        ∃ b, l.get? (k + 1) = some (some b) ∧ getUpdateForm l' id = some b) ∧
      (k + 1 = l.length → getUpdateForm l' id = none) := by
  obtain ⟨o, ho⟩ : ∃ o, l.get? k = some o := by
    cases ho : l.get? k with
    | none => exact absurd (List.get?_eq_none.mp ho) (by omega)
    | some o => exact ⟨o, rfl⟩
  obtain ⟨a, rfl⟩ : ∃ a, o = some a := by
    have hs := hfull o (List.get?_mem ho)
    exact Option.isSome_iff_exists.mp hs
  have ho' : l[k]? = some (some a) := by
    rw [← List.get?_eq_getElem?]
    exact ho
  have hdel : postDelete l id = some (l.eraseIdx k, a) := by
    simp [postDelete, hid, ho', Option.join]
  have hshift : getUpdateForm (l.eraseIdx k) id = (l.get? (k + 1)).join := by
    simp only [getUpdateForm, arrGet, hid]
    rw [List.get?_eq_getElem?, List.getElem?_eraseIdx]
    simp [List.get?_eq_getElem?]
  refine ⟨l.eraseIdx k, a, hdel, ho, hshift, ?_, ?_⟩
  · intro hlt
    obtain ⟨o', ho'⟩ : ∃ o', l.get? (k + 1) = some o' := by
      cases ho' : l.get? (k + 1) with
      | none => exact absurd (List.get?_eq_none.mp ho') (by omega)
      | some o' => exact ⟨o', rfl⟩
    obtain ⟨b, rfl⟩ : ∃ b, o' = some b :=
      Option.isSome_iff_exists.mp (hfull o' (List.get?_mem ho'))
    exact ⟨b, ho', by rw [hshift, ho']; rfl⟩
  · intro hlast
    rw [hshift, List.get?_eq_none.mpr (by omega)]
    rfl

/-- C4 (witness): Create(A), Create(B), Create(C), Delete(0): Get(0) then
returns B; and deleting the last index of `[A]` makes Get(0) fail. -/
theorem c4_delete_reindex_witness :
    ((∀ o ∈ ([some artA, some artB, some artC] : Collection), Option.isSome o) ∧
      jsArrayIndex? "0" = some 0 ∧ (0 : Nat) < ([some artA, some artB, some artC] : Collection).length) ∧
    (∃ l' a, postDelete [some artA, some artB, some artC] "0" = some (l', a) ∧
      ([some artA, some artB, some artC] : Collection).get? 0 = some (some a) ∧
      getUpdateForm l' "0" = (([some artA, some artB, some artC] : Collection).get? 1).join ∧
      (0 + 1 < ([some artA, some artB, some artC] : Collection).length →
        ∃ b, ([some artA, some artB, some artC] : Collection).get? (0 + 1) = some (some b) ∧
          getUpdateForm l' "0" = some b) ∧
      (0 + 1 = ([some artA, some artB, some artC] : Collection).length →
        getUpdateForm l' "0" = none)) :=
  ⟨⟨by decide, by decide, by decide⟩,
    c4_delete_reindex [some artA, some artB, some artC] "0" 0
      (by decide) (by decide) (by decide)⟩

/-- C5: saving a collection and reloading the resulting document
reconstructs the same sequence field for field. -/
theorem c5_save_load_roundtrip (l : Collection) :
    collectionOfJson (saveDoc l) = some l := by
  have hone : ∀ o : Option Artwork,
      artworkOfJson ((o.map artworkToJson).getD JsVal.jnull) = some o := by
    intro o
    cases o with
    | none => rfl
    | some a =>
      obtain ⟨t, d, ds, img, lk⟩ := a
      cases img <;> rfl
  unfold saveDoc collectionOfJson
  induction l with
  | nil => rfl
  | cons o rest ih =>
    simp only [List.map_cons, List.mapM_cons, hone]
    simp only [List.mapM_cons] at ih ⊢
    rw [show (List.map (fun o => ((o.map artworkToJson).getD JsVal.jnull)) rest).mapM artworkOfJson
          = some rest from ih]
    rfl

/-- C6 (counterexample): the claim says ToggleLike at every invalid index is
a silent no-op leaving the collection and the persisted document unchanged.
The index `"1.9"` is invalid (non-integral), yet on a two-record collection
`parseInt` coerces it to `1`, so the handler flips the second record's
`liked` flag and saves. -/
theorem c6_counterexample :
    (postToggle [some artA, some artC] "1.9").1 ≠ [some artA, some artC] ∧
    (postToggle [some artA, some artC] "1.9").2 = true := by decide

/-- C6 (amended): ToggleLike first coerces its index with `parseInt`.  When
no coerced position holds a record (the parse yields `NaN`, a negative
integer, or a position at or beyond the length), the operation is a silent
no-op: it does not fail, the collection is unchanged and no save runs.  When
the coerced position holds a record, its `liked` flag is flipped and the
collection is saved. -/
theorem c6_amended (l : Collection) (id : String) :
    ((∀ i, parseIntJs id = some i → i < 0 ∨ l.length ≤ i.toNat) →
      postToggle l id = (l, false)) ∧
    (∀ i a, parseIntJs id = some i → 0 ≤ i → l.get? i.toNat = some (some a) →
      postToggle l id = (l.set i.toNat (some { a with liked := !a.liked }), true)) := by
  constructor
  · intro hinv
    cases hp : parseIntJs id with
    | none => simp only [postToggle, hp]
    | some i =>
      rcases hinv i hp with hneg | hlen
      · simp only [postToggle, hp, if_pos hneg]
      · by_cases hneg : i < 0
        · simp only [postToggle, hp, if_pos hneg]
        · have hnone : l.get? i.toNat = none := List.get?_eq_none.mpr hlen
          simp only [postToggle, hp, if_neg hneg, hnone]
  · intro i a hp hge hget
    simp only [postToggle, hp, if_neg (by omega : ¬ i < 0), hget]

/-- C6 (amended, witness): `"zzz"` coerces to NaN and is a no-op with no
save; `"1.9"` coerces to position 1 of a two-record collection, whose
`liked` flag is flipped and saved. -/
theorem c6_amended_witness :
    postToggle [some artA, some artC] "zzz" = ([some artA, some artC], false) ∧
    postToggle [some artA, some artC] "1.9" =
      (([some artA, some artC] : Collection).set 1
        (some { artC with liked := !artC.liked }), true) :=
  ⟨(c6_amended [some artA, some artC] "zzz").1
      (by intro i hi; rw [show parseIntJs "zzz" = none from by decide] at hi; cases hi),
    (c6_amended [some artA, some artC] "1.9").2 1 artC (by decide) (by decide) (by decide)⟩

/-- C7: the home view lists exactly the records whose title contains the
query case-insensitively, the favourites view exactly the liked records
whose title or description contains it; containment is genuine substring
containment of the lowercased text, the empty query matches every record,
and both result lists keep collection order (strictly increasing indices). -/
theorem c7_search_filters (l : Collection) (q : String) (i : Nat) (a : Artwork) :
    ((i, a) ∈ homeCards l q ↔ l.get? i = some (some a) ∧ containsCI a.title q = true) ∧
    ((i, a) ∈ favCards l q ↔
      l.get? i = some (some a) ∧ a.liked = true ∧
        (containsCI a.title q || containsCI a.description q) = true) ∧
    (containsCI a.title q = true ↔ lowerChars q <:+: lowerChars a.title) ∧
    containsCI a.title "" = true ∧
    (homeCards l q).Pairwise (fun p p' => p.1 < p'.1) ∧
    (favCards l q).Pairwise (fun p p' => p.1 < p'.1) := by
  refine ⟨?_, ?_, ?_, ?_, ?_, ?_⟩
  · unfold homeCards
    rw [List.mem_filter, mem_withIndex]
  · unfold favCards
    rw [List.mem_filter, mem_withIndex]
    simp [Bool.and_eq_true, and_assoc]
  · exact infixOf_iff_infix (lowerChars q) (lowerChars a.title)
  · have : lowerChars "" = [] := rfl
    rw [containsCI, this, infixOf.eq_def]
    simp [List.isPrefixOf]
  · exact (withIndex_pairwise l).filter _
  · exact (withIndex_pairwise l).filter _

/-- C8: when the backing document is missing or its content fails to parse
(the parse outcome is `none`, covering both branches of the `try`/`catch` at
startup), the loaded state is the empty sequence rather than a propagated
error. -/
theorem c8_load_fallback (parsed : Option JsVal) (h : parsed = none) :
    loadCollection parsed = some ([] : Collection) := by
  subst h
  rfl

/-- C8 (witness): the fallback at the concrete missing/malformed outcome. -/
theorem c8_load_fallback_witness :
    (none : Option JsVal) = none ∧ loadCollection none = some ([] : Collection) :=
  ⟨rfl, c8_load_fallback none rfl⟩

/-- The C9 invariant: every record present in the collection has a non-empty
title. -/
def titlesNonEmpty (l : Collection) : Prop :=
  ∀ o ∈ l, o.map Artwork.title ≠ some ""

instance (l : Collection) : Decidable (titlesNonEmpty l) :=
  inferInstanceAs (Decidable (∀ o ∈ l, o.map Artwork.title ≠ some ""))

/-- C9 (counterexample): the claim says every reachable state has only
non-empty titles.  Starting from the empty collection, a successful Create
followed by a successful Update at the valid index `"0"` with an empty title
yields a record whose title is empty: `POST /updateArtwork` performs no
validation. -/
theorem c9_counterexample :
    (postAdd [] (some "A") (some "2020-01-01") (some "first artwork") none).2 = true ∧
    ¬ titlesNonEmpty
        (postUpdate (postAdd [] (some "A") (some "2020-01-01") (some "first artwork") none).1
          "0" "" "2020-01-01" "first artwork") := by
  constructor
  · decide
  · intro h
    exact absurd (by decide :
      (postUpdate (postAdd [] (some "A") (some "2020-01-01") (some "first artwork") none).1
          "0" "" "2020-01-01" "first artwork").get? 0 =
        some (some ⟨"", "2020-01-01", "first artwork", none, false⟩))
      (fun hg => h _ (List.get?_mem hg) rfl)

/-- C9 (amended): the non-empty-title invariant is preserved by Create
(which validates), Delete, ToggleLike, and by Update whenever the submitted
title is non-empty; Update itself does not validate, so the invariant as
originally claimed holds only under that proviso on Update calls. -/
theorem c9_amended (l : Collection) (id t d ds : String) (t' d' ds' img : Option String)
    (hl : titlesNonEmpty l) (ht : t ≠ "") :
    titlesNonEmpty (postAdd l t' d' ds' img).1 ∧
    titlesNonEmpty (postUpdate l id t d ds) ∧
    titlesNonEmpty ((postDelete l id).elim l Prod.fst) ∧
    titlesNonEmpty (postToggle l id).1 := by
  refine ⟨?_, ?_, ?_, ?_⟩
  · unfold postAdd
    by_cases hc : (jsTruthy t' && jsTruthy d' && jsTruthy ds') = true
    · rw [if_pos hc]
      intro o ho
      rcases List.mem_append.mp ho with h | h
      · exact hl o h
      · have hx : o = some ⟨t'.getD "", d'.getD "", ds'.getD "", img, false⟩ := by
          simpa using h
        subst hx
        have htr : jsTruthy t' = true := by
          rcases Bool.and_eq_true .. ▸ hc with ⟨h1, _⟩
          exact (Bool.and_eq_true .. ▸ h1).1
        cases t' with
        | none => simp [jsTruthy] at htr
        | some s =>
          simp only [jsTruthy, bne_iff_ne] at htr
          simpa using htr
    · rw [if_neg hc]
      exact hl
  · cases hj : jsArrayIndex? id with
    | none =>
      simp only [postUpdate, hj]
      exact hl
    | some n =>
      cases hg : l.get? n with
      | none =>
        simp only [postUpdate, hj, hg]
        intro o ho
        rcases List.mem_append.mp ho with h | h
        · rcases List.mem_append.mp h with h' | h'
          · exact hl o h'
          · rw [(List.mem_replicate.mp h').2]
            simp
        · have hx : o = some ⟨t, d, ds, none, false⟩ := by simpa using h
          subst hx
          simpa using ht
      | some o' =>
        cases o' with
        | none =>
          simp only [postUpdate, hj, hg]
          intro o ho
          rcases List.mem_or_eq_of_mem_set ho with h | h
          · exact hl o h
          · subst h
            simpa using ht
        | some a =>
          simp only [postUpdate, hj, hg]
          intro o ho
          rcases List.mem_or_eq_of_mem_set ho with h | h
          · exact hl o h
          · subst h
            simpa using ht
  · cases hj : jsArrayIndex? id with
    | none =>
      have hdel : postDelete l id = none := by simp only [postDelete, hj]
      rw [hdel]
      simpa using hl
    | some n =>
      cases hg : l[n]? with
      | none =>
        have hdel : postDelete l id = none := by
          simp [postDelete, hj, hg, Option.join]
        rw [hdel]
        simpa using hl
      | some o' =>
        cases o' with
        | none =>
          have hdel : postDelete l id = none := by
            simp [postDelete, hj, hg, Option.join]
          rw [hdel]
          simpa using hl
        | some a =>
          have hdel : postDelete l id = some (l.eraseIdx n, a) := by
            simp [postDelete, hj, hg, Option.join]
          rw [hdel]
          simp only [Option.elim]
          intro o ho
          exact hl o ((List.eraseIdx_sublist l n).subset ho)
  · cases hp : parseIntJs id with
    | none =>
      simp only [postToggle, hp]
      exact hl
    | some i =>
      by_cases hneg : i < 0
      · simp only [postToggle, hp, if_pos hneg]
        exact hl
      · cases hg : l.get? i.toNat with
        | none =>
          simp only [postToggle, hp, if_neg hneg, hg]
          exact hl
        | some o' =>
          cases o' with
          | none =>
            simp only [postToggle, hp, if_neg hneg, hg]
            exact hl
          | some a =>
            simp only [postToggle, hp, if_neg hneg, hg]
            intro o ho
            rcases List.mem_or_eq_of_mem_set ho with h | h
            · exact hl o h
            · subst h
              have := hl (some a) (List.get?_mem hg)
              simpa using this

/-- C9 (amended, witness): the preservation statement at a concrete
one-record collection, index `"0"` and non-empty replacement title. -/
theorem c9_amended_witness :
    (titlesNonEmpty [some artA] ∧ "N" ≠ "") ∧
    (titlesNonEmpty (postAdd [some artA] (some "B") (some "2021-02-02") (some "second") none).1 ∧
      titlesNonEmpty (postUpdate [some artA] "0" "N" "2024-01-01" "edited") ∧
      titlesNonEmpty ((postDelete [some artA] "0").elim [some artA] Prod.fst) ∧
      titlesNonEmpty (postToggle [some artA] "0").1) :=
  ⟨⟨by decide, by decide⟩,
    c9_amended [some artA] "0" "N" "2024-01-01" "edited"
      (some "B") (some "2021-02-02") (some "second") none (by decide) (by decide)⟩

/-- C10: ToggleLike coerces its index with `parseInt` before checking
validity: the non-integral index string `"1.9"` coerces to the integer
prefix `1`, and on a collection with at least two records the handler flips
the `liked` flag of the record at position 1 and saves, instead of being a
no-op. -/
theorem c10_toggle_integer_prefix_coercion :
    parseIntJs "1.9" = some 1 ∧
    postToggle [some artA, some artC] "1.9" =
      ([some artA, some { artC with liked := true }], true) := by decide
